import Mathlib

/-!
# Verification of the ytminer aggregation core

A shallow embedding of the aggregation/reporting routines of `ytminer.py`
(`YouTubeMiner.analyze_growth_patterns`, `analyze_titles`, `analyze_competitors`,
`analyze_temporal_patterns`, `analyze_keywords`, `generate_executive_report`
and their helpers), together with theorems about them.

Modelling conventions:
* Python/pandas floats are modelled as exact rationals `ℚ`; a pandas series
  value that can be `NaN` or `+inf` (a division whose denominator can be zero)
  is modelled by the type `PdF` with constructors `nan`, `inf`, `val`.
  pandas `Series.mean()` skips `NaN` (skipna) but propagates `inf`;
  `pdMean` below does exactly that.
* `Series.round(2)` / numpy rounding is round-half-to-even at two decimals,
  modelled exactly on `ℚ` by `round2`.
* A video's `published_at` timestamp is modelled at (day, hour) granularity:
  `pubDay` is the number of days since the epoch and `pubHour` the hour of
  day of the publish instant; `datetime.now()` is threaded through as an
  explicit epoch-day parameter `now`. Only day differences and the derived
  weekday/hour are ever consumed by the aggregators.
* Python strings are modelled as `List Char` where character-level processing
  happens (titles, keywords) and as `String` for atomic labels (channel names,
  weekday names, insight categories). The inputs of interest are ASCII, where
  `Char.toLower` agrees with `str.lower`.
* `df.nlargest(k, col)` (keep=first), `sorted(..., reverse=True)`,
  `list.sort(reverse=True)` and `Counter.most_common` are all stable
  descending orderings; all are modelled by the stable insertion sort
  `sortDescBy` below.
* pandas `groupby` sorts group keys; every consumer below either re-sorts the
  groups (by total views / calendar position) or folds over them with an
  order-insensitive aggregate, so groups are materialised in first-occurrence
  or calendar order as noted at each definition.
-/

/-- Python whitespace as recognised by `str.split()` (ASCII fragment). -/
def pyIsSpace (c : Char) : Bool :=
  c = ' ' || c = '\t' || c = '\n' || c = '\r' || c = '\x0b' || c = '\x0c'

/-- A regex word character `\w` (ASCII fragment): letters, digits, underscore. -/
def isWordChar (c : Char) : Bool :=
  c.isAlphanum || c = '_'

/-- `str.lower()` on the ASCII fragment. -/
def lowerChars (s : List Char) : List Char :=
  s.map Char.toLower

/-- `str.split()` with no separator: split on whitespace runs, dropping
empty pieces. -/
def pySplit (s : List Char) : List (List Char) :=
  (s.foldr
    (fun c acc =>
      if pyIsSpace c then [] :: acc
      else
        match acc with
        | [] => [[c]]
        | t :: ts => (c :: t) :: ts)
    []).filter (fun t => !t.isEmpty)

/-- Maximal runs of `\w` characters of a string (the candidate regex words). -/
def wordRuns (s : List Char) : List (List Char) :=
  (s.foldr
    (fun c acc =>
      if isWordChar c then
        match acc with
        | [] => [[c]]
        | t :: ts => (c :: t) :: ts
      else [] :: acc)
    []).filter (fun t => !t.isEmpty)

/-- Python's substring test `pat in s` (contiguous substring; the empty
pattern is contained in everything). -/
def containsSub (pat : List Char) : List Char → Bool
  | [] => pat.isEmpty
  | c :: rest => pat.isPrefixOf (c :: rest) || containsSub pat rest

/-- `' '.join(words)`. -/
def joinSpace (ws : List (List Char)) : List Char :=
  List.intercalate [' '] ws

/-- `', '.join(words)`. -/
def joinCommaSpace (ws : List (List Char)) : List Char :=
  List.intercalate [',', ' '] ws

/-- `collections.Counter`: add one occurrence of `x`, keeping keys in
first-occurrence (dict insertion) order. -/
def counterAdd [DecidableEq α] : List (α × Nat) → α → List (α × Nat)
  | [], x => [(x, 1)]
  | (y, n) :: rest, x =>
      if x = y then (y, n + 1) :: rest else (y, n) :: counterAdd rest x

/-- `collections.Counter(xs)` as an association list in key insertion order. -/
def counter [DecidableEq α] (xs : List α) : List (α × Nat) :=
  xs.foldl counterAdd []

/-- First-occurrence deduplication (Python `dict` key order). -/
def dedupFO [DecidableEq α] : List α → List α
  | [] => []
  | x :: xs => x :: (dedupFO xs).filter (fun y => y ≠ x)

/-! ## Round-half-to-even (numpy/pandas `.round(2)`) -/

/-- Round to the nearest integer, halves to even (numpy rounding). -/
def rhe (x : ℚ) : ℤ :=
  if x - ⌊x⌋ < 1 / 2 then ⌊x⌋
  else if 1 / 2 < x - ⌊x⌋ then ⌊x⌋ + 1
  else if Even ⌊x⌋ then ⌊x⌋ else ⌊x⌋ + 1

/-- `round(x, 2)` / `Series.round(2)`: round half to even at two decimals. -/
def round2 (x : ℚ) : ℚ :=
  (rhe (x * 100) : ℚ) / 100

/-! ## Pandas float values with `NaN` and `+inf` -/

/-- A pandas float cell as produced by dividing non-negative counts:
a finite value, `NaN` (from `0/0`) or `+inf` (from `k/0`, `k > 0`). -/
inductive PdF where
  | nan : PdF
  | inf : PdF
  | val : ℚ → PdF
deriving DecidableEq, Repr

instance : Inhabited PdF := ⟨PdF.nan⟩

/-- Element-wise pandas division of two non-negative integer counts. -/
def pdDivNat (a b : Nat) : PdF :=
  if b = 0 then (if a = 0 then PdF.nan else PdF.inf)
  else PdF.val ((a : ℚ) / (b : ℚ))

/-- Multiply a pandas float by a positive rational constant (e.g. `* 100`). -/
def pdScale (c : ℚ) : PdF → PdF
  | PdF.nan => PdF.nan
  | PdF.inf => PdF.inf
  | PdF.val q => PdF.val (c * q)

/-- The finite content of a pandas float (junk on `nan`/`inf`). -/
def pdToQ : PdF → ℚ
  | PdF.val q => q
  | _ => 0

/-- Is the value an ordinary finite number? -/
def pdIsFinite : PdF → Bool
  | PdF.val _ => true
  | _ => false

/-- `Series.mean()` with the default `skipna=True`: `NaN` entries are
dropped, an `inf` entry makes the mean `inf`, the mean of nothing is `NaN`. -/
def pdMean (l : List PdF) : PdF :=
  let xs := l.filter (fun x => !(x == PdF.nan))
  if xs.isEmpty then PdF.nan
  else if xs.any (fun x => x == PdF.inf) then PdF.inf
  else PdF.val ((xs.map pdToQ).sum / (xs.length : ℚ))

/-- `Series.round(2)` on a possibly non-finite value (`inf`/`NaN` pass
through untouched). -/
def pdRound2 : PdF → PdF
  | PdF.val q => PdF.val (round2 q)
  | x => x

/-- Comparison `x > q` as Python evaluates it on floats:
`inf > q` is true, `nan > q` is false. -/
def pdGt (x : PdF) (q : ℚ) : Bool :=
  match x with
  | PdF.nan => false
  | PdF.inf => true
  | PdF.val v => q < v

/-! ## Stable descending sort (`nlargest`, `sorted(reverse=True)`, …) -/

/-- Insert `x` before the first element whose key is `≤ key x`; elements with
strictly larger keys stay in front, so equal keys keep input order. -/
def insertDescBy [LinearOrder κ] (key : α → κ) (x : α) : List α → List α
  | [] => [x]
  | y :: ys => if key x < key y then y :: insertDescBy key x ys else x :: y :: ys

/-- Stable insertion sort, descending by `key` (the order produced by
`df.nlargest` with keep=first and by Python's stable `sorted(reverse=True)`). -/
def sortDescBy [LinearOrder κ] (key : α → κ) : List α → List α
  | [] => []
  | x :: xs => insertDescBy key x (sortDescBy key xs)

/-- `df.nlargest(n, col)` (keep=first): the first `n` rows of the stable
descending sort. -/
def nlargestBy [LinearOrder κ] (n : Nat) (key : α → κ) (l : List α) : List α :=
  (sortDescBy key l).take n

theorem insertDescBy_perm [LinearOrder κ] (key : α → κ) (x : α) (l : List α) :
    List.Perm (insertDescBy key x l) (x :: l) := by
  induction l with
  | nil => simp [insertDescBy]
  | cons y ys ih =>
      simp only [insertDescBy]
      split
      · exact ((ih.cons y).trans (List.Perm.swap x y ys))
      · exact List.Perm.refl _

theorem sortDescBy_perm [LinearOrder κ] (key : α → κ) (l : List α) :
    List.Perm (sortDescBy key l) l := by
  induction l with
  | nil => simp [sortDescBy]
  | cons x xs ih =>
      exact (insertDescBy_perm key x (sortDescBy key xs)).trans (ih.cons x)

theorem insertDescBy_pairwise [LinearOrder κ] (key : α → κ) (x : α) (l : List α)
    (h : l.Pairwise (fun a b => key b ≤ key a)) :
    (insertDescBy key x l).Pairwise (fun a b => key b ≤ key a) := by
  induction l with
  | nil => simp [insertDescBy]
  | cons y ys ih =>
      rw [List.pairwise_cons] at h
      simp only [insertDescBy]
      split
      · rename_i hlt
        refine List.pairwise_cons.mpr ⟨?_, ih h.2⟩
        intro b hb
        have hb' := (insertDescBy_perm key x ys).mem_iff.mp hb
        rcases List.mem_cons.mp hb' with rfl | hmem
        · exact le_of_lt hlt
        · exact h.1 b hmem
      · rename_i hge
        push_neg at hge
        refine List.pairwise_cons.mpr ⟨?_, List.pairwise_cons.mpr h⟩
        intro b hb
        rcases List.mem_cons.mp hb with rfl | hmem
        · exact hge
        · exact le_trans (h.1 b hmem) hge

theorem sortDescBy_pairwise [LinearOrder κ] (key : α → κ) (l : List α) :
    (sortDescBy key l).Pairwise (fun a b => key b ≤ key a) := by
  induction l with
  | nil => simp [sortDescBy]
  | cons x xs ih => exact insertDescBy_pairwise key x _ ih

theorem insertDescBy_filter_key [LinearOrder κ] [DecidableEq κ] (key : α → κ)
    (x : α) (l : List α) (v : κ) :
    (insertDescBy key x l).filter (fun a => key a == v) =
      if key x = v then x :: l.filter (fun a => key a == v)
      else l.filter (fun a => key a == v) := by
  induction l with
  | nil =>
      by_cases hv : key x = v <;>
        simp [insertDescBy, List.filter_cons, List.filter_nil, hv]
  | cons y ys ih =>
      simp only [insertDescBy]
      split
      · rename_i hlt
        by_cases hv : key x = v
        · have hy : ¬ key y = v := by
            intro hyv
            exact absurd (hv ▸ hyv ▸ hlt) (lt_irrefl _)
          simp [List.filter_cons, hy, hv, ih]
        · by_cases hy : key y = v <;> simp [List.filter_cons, hy, hv, ih]
      · by_cases hv : key x = v <;> simp [List.filter_cons, hv]

theorem sortDescBy_filter_key [LinearOrder κ] [DecidableEq κ] (key : α → κ)
    (l : List α) (v : κ) :
    (sortDescBy key l).filter (fun a => key a == v) =
      l.filter (fun a => key a == v) := by
  induction l with
  | nil => simp [sortDescBy]
  | cons x xs ih =>
      simp only [sortDescBy]
      rw [insertDescBy_filter_key, ih]
      by_cases hv : key x = v <;> simp [List.filter_cons, hv]

theorem sortDescBy_length [LinearOrder κ] (key : α → κ) (l : List α) :
    (sortDescBy key l).length = l.length :=
  (sortDescBy_perm key l).length_eq

/-! ## Data model -/

/-- One fetched video (`video_data` in `search_videos`). `description`,
`duration` and `url` are presentation-only fields never consumed by an
aggregator and are omitted; `published_at` is modelled at (day, hour)
granularity as explained in the header. -/
structure Video where
  id : List Char
  title : List Char
  channel : String
  pubDay : Nat
  pubHour : Nat
  view_count : Nat
  like_count : Nat
  comment_count : Nat
deriving DecidableEq, Repr, Inhabited

/-! ## Growth/Summary aggregator (`analyze_growth_patterns`) -/

/-- One row of `top_performers` / `best_engagement`
(columns `title, view_count, like_count, days_ago`). -/
structure PerfEntry where
  title : List Char
  view_count : Nat
  like_count : Nat
  days_ago : Int
deriving DecidableEq, Repr, Inhabited

/-- One row of `recent_trends` (columns `title, view_count, days_ago`). -/
structure TrendEntry where
  title : List Char
  view_count : Nat
  days_ago : Int
deriving DecidableEq, Repr, Inhabited

/-- `days_ago` of a video: `(datetime.now() - published_at).days`. -/
def daysAgo (now : Nat) (v : Video) : Int :=
  (now : Int) - (v.pubDay : Int)

/-- Project a video onto a `top_performers` row. -/
def mkPerf (now : Nat) (v : Video) : PerfEntry :=
  ⟨v.title, v.view_count, v.like_count, daysAgo now v⟩

/-- Project a video onto a `best_engagement` row
(same columns, selected in the order `title, like_count, view_count, days_ago`). -/
def mkBestEng (now : Nat) (v : Video) : PerfEntry :=
  ⟨v.title, v.view_count, v.like_count, daysAgo now v⟩

/-- Project a video onto a `recent_trends` row. -/
def mkTrend (now : Nat) (v : Video) : TrendEntry :=
  ⟨v.title, v.view_count, daysAgo now v⟩

/-- The per-video engagement column `df['like_count'] / df['view_count']`. -/
def engagementCell (v : Video) : PdF :=
  pdDivNat v.like_count v.view_count

/-- Result dictionary of `analyze_growth_patterns`. -/
structure GrowthAnalysis where
  total_videos : Nat
  avg_views : ℚ
  avg_likes : ℚ
  avg_engagement_rate : PdF
  top_performers : List PerfEntry
  recent_trends : List TrendEntry
  best_engagement : List PerfEntry
deriving DecidableEq, Repr, Inhabited

/-- `analyze_growth_patterns` (returns `{}` — here `none` — on empty input). -/
def analyze_growth_patterns (now : Nat) (videos : List Video) :
    Option GrowthAnalysis :=
  if videos.isEmpty then none
  else some
    { total_videos := videos.length
      avg_views := ((videos.map fun v => (v.view_count : ℚ)).sum) / (videos.length : ℚ)
      avg_likes := ((videos.map fun v => (v.like_count : ℚ)).sum) / (videos.length : ℚ)
      avg_engagement_rate := pdScale 100 (pdMean (videos.map engagementCell))
      top_performers := (nlargestBy 5 (fun v => v.view_count) videos).map (mkPerf now)
      recent_trends :=
        (nlargestBy 3 (fun v => v.view_count)
            (videos.filter fun v => decide (daysAgo now v ≤ 7))).map (mkTrend now)
      best_engagement := (nlargestBy 3 (fun v => v.like_count) videos).map (mkBestEng now) }

/-! ## Title-pattern aggregator (`analyze_titles` and helpers) -/

/-- `re.sub(r'[^\w\s]', ' ', title.lower())` followed by `split()`,
keeping words of length `> 2` (`_extract_common_words` inner loop). -/
def cleanWords (title : List Char) : List (List Char) :=
  (pySplit ((lowerChars title).map
    (fun c => if !isWordChar c && !pyIsSpace c then ' ' else c))).filter
      (fun w => 2 < w.length)

/-- `_extract_common_words`: top-10 alphanumeric-normalised words. -/
def extract_common_words (titles : List (List Char)) : List (List Char × Nat) :=
  nlargestBy 10 (fun p => p.2) (counter (titles.flatMap cleanWords))

/-- The 2-word adjacent phrases of one cleaned title whose joined length is
`> 5` (`_extract_common_phrases` inner loop; the cleaning drops the
length-`> 2` word filter). -/
def titlePhrases (title : List Char) : List (List Char) :=
  let words := pySplit ((lowerChars title).map
    (fun c => if !isWordChar c && !pyIsSpace c then ' ' else c))
  ((words.zip words.tail).map fun p => p.1 ++ ' ' :: p.2).filter
    (fun ph => 5 < ph.length)

/-- `_extract_common_phrases`: top-8 two-word phrases. -/
def extract_common_phrases (titles : List (List Char)) : List (List Char × Nat) :=
  nlargestBy 8 (fun p => p.2) (counter (titles.flatMap titlePhrases))

/-- `re.findall(r'[^\w\s]', title)`: the "emoji" characters of a title. -/
def emojiChars (title : List Char) : List Char :=
  title.filter (fun c => !isWordChar c && !pyIsSpace c)

/-- Result of `_analyze_emojis`. -/
structure EmojiUsage where
  titles_with_emojis : Nat
  emoji_percentage : ℚ
  most_common_emojis : List (Char × Nat)
deriving DecidableEq, Repr, Inhabited

/-- `_analyze_emojis`. -/
def analyze_emojis (titles : List (List Char)) : EmojiUsage :=
  { titles_with_emojis := (titles.filter fun t => !(emojiChars t).isEmpty).length
    emoji_percentage :=
      (((titles.filter fun t => !(emojiChars t).isEmpty).length : ℚ) /
        (titles.length : ℚ)) * 100
    most_common_emojis :=
      nlargestBy 5 (fun p => p.2) (counter (titles.flatMap emojiChars)) }

/-- Result of `_analyze_title_patterns` (six percentages). -/
structure TitlePatterns where
  tutorial_pattern : ℚ
  number_pattern : ℚ
  question_pattern : ℚ
  exclamation_pattern : ℚ
  bracket_pattern : ℚ
  parentheses_pattern : ℚ
deriving DecidableEq, Repr, Inhabited

/-- Share (%) of titles satisfying `p`, with the `total > 0` guard of
`_analyze_title_patterns`. -/
def patternPct (titles : List (List Char)) (p : List Char → Bool) : ℚ :=
  if titles.length = 0 then 0
  else (((titles.filter p).length : ℚ) / (titles.length : ℚ)) * 100

/-- The tutorial-style trigger words of `_analyze_title_patterns`. -/
def tutorialWords : List (List Char) :=
  [("tutorial").data, ("how to").data, ("como").data, ("aprenda").data, ("learn").data]

/-- `_analyze_title_patterns`. -/
def analyze_title_patterns (titles : List (List Char)) : TitlePatterns :=
  { tutorial_pattern := patternPct titles
      (fun t => tutorialWords.any fun w => containsSub w (lowerChars t))
    number_pattern := patternPct titles (fun t => t.any Char.isDigit)
    question_pattern := patternPct titles (fun t => t.contains '?')
    exclamation_pattern := patternPct titles (fun t => t.contains '!')
    bracket_pattern := patternPct titles (fun t => t.contains '[' && t.contains ']')
    parentheses_pattern := patternPct titles (fun t => t.contains '(' && t.contains ')') }

/-- Result dictionary of `analyze_titles`. -/
structure TitleAnalysis where
  total_titles_analyzed : Nat
  avg_title_length : ℚ
  most_common_words : List (List Char × Nat)
  most_common_phrases : List (List Char × Nat)
  emoji_usage : EmojiUsage
  title_patterns : TitlePatterns
  successful_titles : List (List Char)
deriving DecidableEq, Repr, Inhabited

/-- The "successful" subset of `analyze_titles`:
`df.nlargest(max(1, len(videos) // 5), 'view_count')`. -/
def titleTopPerformers (videos : List Video) : List Video :=
  nlargestBy (max 1 (videos.length / 5)) (fun v => v.view_count) videos

/-- `analyze_titles` (returns `{}` — here `none` — on empty input). -/
def analyze_titles (videos : List Video) : Option TitleAnalysis :=
  if videos.isEmpty then none
  else
    let titles := (titleTopPerformers videos).map (fun v => v.title)
    some
      { total_titles_analyzed := titles.length
        avg_title_length :=
          ((titles.map fun t => (t.length : ℚ)).sum) / (titles.length : ℚ)
        most_common_words := extract_common_words titles
        most_common_phrases := extract_common_phrases titles
        emoji_usage := analyze_emojis titles
        title_patterns := analyze_title_patterns titles
        successful_titles := titles.take 5 }

/-! ## Competitor/channel aggregator (`analyze_competitors`) -/

/-- One row of `channel_stats` after the flattened aggregation, the
engagement-rate column and the market-share column have been added.
`market_share` is a plain rational: the only input on which pandas would
produce a non-finite share is an all-zero-views batch (grand total 0, share
`NaN`); there the model yields 0, which classifies to the same
`'Low'` concentration level, and every share statement proved below assumes
a positive grand total. -/
structure ChannelStat where
  channel : String
  video_count : Nat
  total_views : Nat
  avg_views : ℚ
  total_likes : Nat
  avg_likes : ℚ
  title_count : Nat
  engagement_rate : PdF
  market_share : ℚ
deriving DecidableEq, Repr, Inhabited

/-- The rows of one channel's group. -/
def channelRows (videos : List Video) (c : String) : List Video :=
  videos.filter (fun v => v.channel == c)

/-- One channel's aggregated row (`groupby('channel').agg({...}).round(2)`
plus the `engagement_rate` column; `market_share` is attached later, after
sorting, and is initialised to 0 here). -/
def mkChannelStat (videos : List Video) (c : String) : ChannelStat :=
  let rows := channelRows videos c
  let totalViews : Nat := (rows.map fun v => v.view_count).sum
  let totalLikes : Nat := (rows.map fun v => v.like_count).sum
  { channel := c
    video_count := rows.length
    total_views := totalViews
    avg_views := round2 ((totalViews : ℚ) / (rows.length : ℚ))
    total_likes := totalLikes
    avg_likes := round2 ((totalLikes : ℚ) / (rows.length : ℚ))
    title_count := rows.length
    engagement_rate := pdRound2 (pdScale 100 (pdDivNat totalLikes totalViews))
    market_share := 0 }

/-- The distinct channels of the batch. pandas `groupby` materialises them
sorted by name, but the list is immediately re-sorted by total views, so the
claims are insensitive to the initial key order; the model uses
first-occurrence order. -/
def channelsOf (videos : List Video) : List String :=
  dedupFO (videos.map fun v => v.channel)

/-- `channel_stats` after `sort_values('total_views', ascending=False)` and
the `market_share` assignment
(`(channel_stats['total_views'] / total_views * 100).round(2)`). -/
def channel_stats_sorted (videos : List Video) : List ChannelStat :=
  let sorted := sortDescBy (fun cs => cs.total_views)
    ((channelsOf videos).map (mkChannelStat videos))
  let totalViews := (sorted.map fun cs => cs.total_views).sum
  sorted.map fun cs =>
    { cs with market_share := round2 ((cs.total_views : ℚ) / (totalViews : ℚ) * 100) }

/-- The `market_concentration` sub-dictionary of `analyze_competitors`. -/
structure MarketConcentration where
  top_5_share : ℚ
  top_10_share : ℚ
  concentration_level : String
deriving DecidableEq, Repr, Inhabited

/-- Result dictionary of `analyze_competitors`. The `content_patterns` and
`market_insights` entries are qualitative presentation output consumed by no
claim and are omitted from the model. -/
structure CompetitorAnalysis where
  total_channels : Nat
  market_concentration : MarketConcentration
  top_competitors : List ChannelStat
deriving DecidableEq, Repr, Inhabited

/-- `analyze_competitors` (returns `{}` — here `none` — on empty input). -/
def analyze_competitors (videos : List Video) : Option CompetitorAnalysis :=
  if videos.isEmpty then none
  else
    let stats := channel_stats_sorted videos
    let top5 := ((stats.take 5).map fun cs => cs.market_share).sum
    let top10 := ((stats.take 10).map fun cs => cs.market_share).sum
    some
      { total_channels := stats.length
        market_concentration :=
          { top_5_share := top5
            top_10_share := top10
            concentration_level :=
              if 60 < top5 then "High" else if 40 < top5 then "Medium" else "Low" }
        top_competitors := stats.take 10 }

/-! ## Temporal aggregator (`analyze_temporal_patterns`) -/

/-- The fixed calendar order `day_order` of `analyze_temporal_patterns`. -/
def day_order_list : List String :=
  ["Monday", "Tuesday", "Wednesday", "Thursday", "Friday", "Saturday", "Sunday"]

/-- `dt.day_name()` from the epoch-day number (day 0, 1970-01-01, was a
Thursday, index 3 of the Monday-first week). -/
def dayName (d : Nat) : String :=
  day_order_list.getD ((d + 3) % 7) "Monday"

/-- The per-row column `df['engagement_rate'] =
(df['like_count'] / df['view_count'] * 100).round(2)`. -/
def rowEngagementRate (v : Video) : PdF :=
  pdRound2 (pdScale 100 (pdDivNat v.like_count v.view_count))

/-- One row of `hour_performance` (flattened aggregation columns). -/
structure HourStat where
  hour : Nat
  video_count : Nat
  avg_views : ℚ
  total_views : Nat
  avg_likes : ℚ
  total_likes : Nat
  engagement_rate : PdF
deriving DecidableEq, Repr, Inhabited

/-- One row of `day_performance`. -/
structure DayStat where
  day_of_week : String
  video_count : Nat
  avg_views : ℚ
  total_views : Nat
  avg_likes : ℚ
  total_likes : Nat
  engagement_rate : PdF
deriving DecidableEq, Repr, Inhabited

/-- One hour bucket of `groupby('hour').agg({...}).round(2)`. -/
def mkHourStat (videos : List Video) (h : Nat) : HourStat :=
  let rows := videos.filter (fun v => v.pubHour == h)
  let totalViews : Nat := (rows.map fun v => v.view_count).sum
  let totalLikes : Nat := (rows.map fun v => v.like_count).sum
  { hour := h
    video_count := rows.length
    avg_views := round2 ((totalViews : ℚ) / (rows.length : ℚ))
    total_views := totalViews
    avg_likes := round2 ((totalLikes : ℚ) / (rows.length : ℚ))
    total_likes := totalLikes
    engagement_rate := pdRound2 (pdMean (rows.map rowEngagementRate)) }

/-- One day-of-week bucket of `groupby('day_of_week').agg({...}).round(2)`
with its engagement rate recomputed from the bucket totals. -/
def mkDayStat (videos : List Video) (d : String) : DayStat :=
  let rows := videos.filter (fun v => dayName v.pubDay == d)
  let totalViews : Nat := (rows.map fun v => v.view_count).sum
  let totalLikes : Nat := (rows.map fun v => v.like_count).sum
  { day_of_week := d
    video_count := rows.length
    avg_views := round2 ((totalViews : ℚ) / (rows.length : ℚ))
    total_views := totalViews
    avg_likes := round2 ((totalLikes : ℚ) / (rows.length : ℚ))
    total_likes := totalLikes
    engagement_rate := pdRound2 (pdScale 100 (pdDivNat totalLikes totalViews)) }

/-- The hour buckets in ascending hour order (`groupby` sorts the integer
keys; `dt.hour` is always `< 24`). -/
def hour_performance (videos : List Video) : List HourStat :=
  ((List.range 24).filter (fun h => videos.any fun v => v.pubHour == h)).map
    (mkHourStat videos)

/-- The day buckets. The source groups by day name (alphabetical keys), maps
each name to its calendar index and re-sorts on that index; the net order is
calendar order restricted to the days present, which is what this definition
materialises directly. -/
def day_performance (videos : List Video) : List DayStat :=
  (day_order_list.filter (fun d => videos.any fun v => dayName v.pubDay == d)).map
    (mkDayStat videos)

/-- The `best_posting_times` sub-dictionary (top-3 buckets by mean views;
the source selects the `hour`/`day_of_week`, `avg_views` and
`engagement_rate` columns of those rows — the model keeps the whole rows). -/
structure BestPostingTimes where
  best_hours : List HourStat
  best_days : List DayStat
deriving DecidableEq, Repr, Inhabited

/-- The `recent_vs_older` sub-dictionary. -/
structure RecentVsOlder where
  recent_videos_count : Nat
  older_videos_count : Nat
  recent_avg_views : ℚ
  older_avg_views : ℚ
deriving DecidableEq, Repr, Inhabited

/-- Result dictionary of `analyze_temporal_patterns`. The `monthly_trends`
series (per calendar month, untouched by any claim) and the textual
`insights` list are omitted from the model. -/
structure TemporalAnalysis where
  hour_performance : List HourStat
  day_performance : List DayStat
  best_posting_times : BestPostingTimes
  recent_vs_older : RecentVsOlder
deriving DecidableEq, Repr, Inhabited

/-- `analyze_temporal_patterns` (returns `{}` — here `none` — on empty
input). -/
def analyze_temporal_patterns (now : Nat) (videos : List Video) :
    Option TemporalAnalysis :=
  if videos.isEmpty then none
  else
    let hours := hour_performance videos
    let days := day_performance videos
    let recent := videos.filter (fun v => decide (daysAgo now v ≤ 30))
    let older := videos.filter (fun v => decide (30 < daysAgo now v))
    some
      { hour_performance := hours
        day_performance := days
        best_posting_times :=
          { best_hours := nlargestBy 3 (fun s => s.avg_views) hours
            best_days := nlargestBy 3 (fun s => s.avg_views) days }
        recent_vs_older :=
          { recent_videos_count := recent.length
            older_videos_count := older.length
            recent_avg_views :=
              if recent.length = 0 then 0
              else ((recent.map fun v => (v.view_count : ℚ)).sum) / (recent.length : ℚ)
            older_avg_views :=
              if older.length = 0 then 0
              else ((older.map fun v => (v.view_count : ℚ)).sum) / (older.length : ℚ) } }

/-! ## Keyword aggregator (`analyze_keywords` and helpers) -/

/-- `re.findall(r'\b[a-zA-Z]{n,}\b', s)`: the maximal `\w`-runs of `s` that
consist solely of letters and have length at least `n` (a run adjacent to a
digit or underscore has no word boundary and never matches). -/
def alphaTokensMin (n : Nat) (s : List Char) : List (List Char) :=
  (wordRuns s).filter (fun t => t.all Char.isAlpha && n ≤ t.length)

/-- The stop-word set of `analyze_keywords` (the Python source lists a few
words twice; membership is unaffected). -/
def stop_words : List (List Char) :=
  (["the", "and", "for", "are", "but", "not", "you", "all", "can", "had",
    "her", "was", "one", "our", "out", "day", "get", "has", "him", "his",
    "how", "its", "may", "new", "now", "old", "see", "two", "who", "boy",
    "did", "man", "men", "put", "say", "she", "too", "use", "way", "will",
    "with", "this", "that", "from", "they", "know", "want", "been", "good",
    "much", "some", "time", "very", "when", "come", "here", "just", "like",
    "long", "make", "many", "over", "such", "take", "than", "them", "well",
    "were", "what", "year", "your", "about", "after", "again", "before",
    "could", "every", "first", "great", "might", "never", "other", "place",
    "right", "should", "small", "still", "think", "where", "which", "while",
    "world", "would", "write", "being", "those", "under", "water", "where",
    "which", "while", "world", "would", "write"] : List String).map String.data

/-- `_calculate_similarity`: character-set Jaccard similarity. -/
def calculate_similarity (word1 word2 : List Char) : ℚ :=
  if word1 = word2 then 1
  else
    let common := word1.dedup.filter (fun c => c ∈ word2)
    let total := (word1 ++ word2).dedup
    if total.isEmpty then 0
    else (common.length : ℚ) / (total.length : ℚ)

/-- One entry of `keyword_variations`. -/
structure KeywordVariation where
  word : List Char
  frequency : Nat
  related_to : List Char
  suggestion : List Char
deriving DecidableEq, Repr, Inhabited

/-- The inner-loop test of `_find_keyword_variations`. -/
def variationMatch (word part : List Char) : Bool :=
  3 < part.length &&
    (containsSub word part || containsSub part word ||
      decide ((6 : ℚ) / 10 < calculate_similarity word part))

/-- `_find_keyword_variations`. -/
def find_keyword_variations (search_keyword : List Char)
    (top_words : List (List Char × Nat)) : List KeywordVariation :=
  let keyword_parts := pySplit (lowerChars search_keyword)
  let vars := top_words.foldl
    (fun acc wc =>
      if keyword_parts.contains wc.1 then acc
      else
        match keyword_parts.find? (fun part => variationMatch wc.1 part) with
        | some part =>
            acc ++ [{ word := wc.1, frequency := wc.2, related_to := part,
                      suggestion := search_keyword ++ ' ' :: wc.1 }]
        | none => acc)
    []
  (sortDescBy (fun v => v.frequency) vars).take 10

/-- One entry of `long_tail_keywords`. -/
structure LongTailEntry where
  phrase : List Char
  title : List Char
deriving DecidableEq, Repr, Inhabited

/-- `_extract_long_tail_keywords` over the title column. For each title
containing the keyword it looks for a single whitespace token containing the
whole keyword, and around that token's index extracts the
`words[max(0, i-1) : min(len(words), i+3)]` window. -/
def extract_long_tail_keywords (titles : List (List Char))
    (search_keyword : List Char) : List LongTailEntry :=
  (titles.foldl
    (fun acc title =>
      let title_lower := lowerChars title
      if containsSub (lowerChars search_keyword) title_lower then
        let words := pySplit title_lower
        match words.findIdx? (fun w => containsSub (lowerChars search_keyword) w) with
        | some i =>
            let start := i - 1
            let stop := min words.length (i + 3)
            let phrase := joinSpace ((words.drop start).take (stop - start))
            if 2 ≤ (pySplit phrase).length &&
                !((acc.map fun lt => lt.phrase).contains phrase) then
              acc ++ [{ phrase := phrase,
                        title := if 50 < title.length
                          then title.take 50 ++ [('.' : Char), '.', '.']
                          else title }]
            else acc
        | none => acc
      else acc)
    []).take 15

/-- One entry of the `keyword_performance` dictionary. -/
structure KeywordPerformance where
  word : List Char
  frequency : Nat
  avg_views : ℤ
  avg_likes : ℤ
  engagement_rate : PdF
  video_count : Nat
deriving DecidableEq, Repr, Inhabited

/-- `_analyze_keyword_performance` (the `int(...)` casts truncate the
non-negative means, i.e. floor them). -/
def analyze_keyword_performance (videos : List Video)
    (top_words : List (List Char × Nat)) : List KeywordPerformance :=
  (top_words.take 10).foldl
    (fun acc wc =>
      let rows := videos.filter (fun v => containsSub wc.1 (lowerChars v.title))
      if rows.isEmpty then acc
      else
        acc ++ [{ word := wc.1
                  frequency := wc.2
                  avg_views := ⌊((rows.map fun v => (v.view_count : ℚ)).sum) / (rows.length : ℚ)⌋
                  avg_likes := ⌊((rows.map fun v => (v.like_count : ℚ)).sum) / (rows.length : ℚ)⌋
                  engagement_rate := pdRound2 (pdMean
                    (rows.map fun v => pdScale 100 (pdDivNat v.like_count v.view_count)))
                  video_count := rows.length }])
    []

/-- `_generate_seo_suggestions`. -/
def generate_seo_suggestions (search_keyword : List Char)
    (top_words : List (List Char × Nat)) (variations : List KeywordVariation) :
    List (List Char) :=
  let high_freq_words := ((top_words.take 5).filter
    (fun wc => 2 < wc.2 && !containsSub wc.1 (lowerChars search_keyword))).map
      (fun wc => wc.1)
  (if !high_freq_words.isEmpty then
    [("Consider using high-frequency words: ").data ++
      joinCommaSpace (high_freq_words.take 3)]
   else []) ++
  (if !variations.isEmpty then
    [("Try keyword variations: ").data ++
      joinCommaSpace ((variations.take 3).map fun v => v.word)]
   else []) ++
  [("Focus on long-tail keywords for less competition").data,
   ("Include numbers in titles (tutorials, tips, etc.)").data,
   ("Use action words: 'learn', 'master', 'build', 'create'").data] ++
  (if containsSub ("tutorial").data (lowerChars search_keyword) then
    [("Add skill level indicators: 'beginner', 'advanced', 'complete'").data]
   else []) ++
  (if containsSub ("programming").data (lowerChars search_keyword) ||
      containsSub ("coding").data (lowerChars search_keyword) then
    [("Include programming language names").data,
     ("Use project-based keywords: 'build', 'create', 'project'").data]
   else [])

/-- One entry of `trending_keywords`. -/
structure TrendingKeyword where
  word : List Char
  count : Nat
deriving DecidableEq, Repr, Inhabited

/-- The exclusion list of `_analyze_trending_keywords`. -/
def trendingExcluded : List (List Char) :=
  (["tutorial", "programming", "learn", "coding", "python",
    "javascript"] : List String).map String.data

/-- The publish instant as a sortable key (day and hour granularity). -/
def pubInstant (v : Video) : Nat :=
  v.pubDay * 24 + v.pubHour

/-- `_analyze_trending_keywords`: alphabetic tokens of length ≥ 4 from the
10 most recently published titles, minus a fixed exclusion list,
frequency-ranked, top 5 (`sort_values('published_at', ascending=False)`
modelled as the stable descending sort on the publish instant). -/
def analyze_trending_keywords (videos : List Video) : List TrendingKeyword :=
  let recent := (sortDescBy pubInstant videos).take 10
  let ws := (recent.map fun v => v.title).flatMap
    (fun title => (alphaTokensMin 4 (lowerChars title)).filter
      (fun w => !trendingExcluded.contains w))
  (nlargestBy 5 (fun p => p.2) (counter ws)).map fun p => ⟨p.1, p.2⟩

/-- Result dictionary of `analyze_keywords`. -/
structure KeywordAnalysis where
  search_keyword : List Char
  top_keywords : List (List Char × Nat)
  keyword_variations : List KeywordVariation
  long_tail_keywords : List LongTailEntry
  keyword_performance : List KeywordPerformance
  seo_suggestions : List (List Char)
  trending_keywords : List TrendingKeyword
  total_words_analyzed : Nat
  unique_words : Nat
deriving DecidableEq, Repr, Inhabited

/-- `analyze_keywords` (returns `{}` — here `none` — on empty input). -/
def analyze_keywords (videos : List Video) (search_keyword : List Char) :
    Option KeywordAnalysis :=
  if videos.isEmpty then none
  else
    let words := alphaTokensMin 3 (joinSpace (videos.map fun v => lowerChars v.title))
    let word_freq := counter words
    let meaningful_words := word_freq.filter
      (fun wc => !stop_words.contains wc.1 && 2 < wc.1.length)
    let top_words := (sortDescBy (fun wc => wc.2) meaningful_words).take 20
    let keyword_variations := find_keyword_variations search_keyword top_words
    some
      { search_keyword := search_keyword
        top_keywords := top_words
        keyword_variations := keyword_variations
        long_tail_keywords :=
          extract_long_tail_keywords (videos.map fun v => v.title) search_keyword
        keyword_performance := analyze_keyword_performance videos top_words
        seo_suggestions :=
          generate_seo_suggestions search_keyword top_words keyword_variations
        trending_keywords := analyze_trending_keywords videos
        total_words_analyzed := words.length
        unique_words := meaningful_words.length }

/-! ## Executive report composer (`generate_executive_report` and helpers) -/

/-- `_calculate_opportunity_score`: base 5, adjusted by concentration level
(`.get(..., 'Medium')` on a missing dictionary), engagement level and
competitor count, clamped into `[1, 10]`. `avg_views` is accepted but, as in
the source, never read. The engagement mean is a pandas float, so the
comparisons go through `pdGt` (`inf > x` true, `nan > x` false). -/
def calculate_opportunity_score (competitor_data : Option CompetitorAnalysis)
    (avg_views : ℚ) (avg_engagement : PdF) : Int :=
  let concentration : String :=
    match competitor_data with
    | some c => c.market_concentration.concentration_level
    | none => "Medium"
  let total_competitors : Nat :=
    match competitor_data with
    | some c => c.top_competitors.length
    | none => 0
  let score : Int := 5
  let score : Int :=
    if concentration = "Low" then score + 2
    else if concentration = "High" then score - 1
    else score
  let score : Int :=
    if pdGt avg_engagement 5 then score + 2
    else if pdGt avg_engagement 2 then score + 1
    else score - 1
  let score : Int :=
    if total_competitors < 5 then score + 1
    else if 15 < total_competitors then score - 1
    else score
  max 1 (min 10 score)

/-- `_get_strategic_recommendation` (only the score is read by the body). -/
def get_strategic_recommendation (opportunity_score : Int)
    (competition_level market_size : String) : List Char :=
  if 8 ≤ opportunity_score then
    ("Excellent opportunity - market is ripe for new entrants with high potential for growth").data
  else if 6 ≤ opportunity_score then
    ("Good opportunity - focus on differentiation and unique value proposition").data
  else if 4 ≤ opportunity_score then
    ("Moderate opportunity - requires careful strategy and consistent execution").data
  else
    ("Challenging market - consider niche sub-topics or different approach").data

/-- The `executive_summary` dictionary (its purely presentational entries —
formatted totals, key-finding strings — are omitted from the model). -/
structure ExecutiveSummary where
  market_size : String
  competition_level : String
  opportunity_score : Int
  strategic_recommendation : List Char
deriving DecidableEq, Repr, Inhabited

/-- `_generate_executive_summary` (`growth_data` and `search_keyword` are
passed by the source but feed only presentation strings). -/
def generate_executive_summary (videos : List Video) (search_keyword : List Char)
    (growth_data : Option GrowthAnalysis)
    (competitor_data : Option CompetitorAnalysis) : ExecutiveSummary :=
  let total_views : Nat := (videos.map fun v => v.view_count).sum
  let avg_views : ℚ :=
    ((videos.map fun v => (v.view_count : ℚ)).sum) / (videos.length : ℚ)
  let avg_engagement : PdF :=
    pdMean (videos.map fun v => pdScale 100 (pdDivNat v.like_count v.view_count))
  let market_size : String :=
    if 100000000 < total_views then "Large"
    else if 10000000 < total_views then "Medium"
    else "Small"
  let concentration : String :=
    match competitor_data with
    | some c => c.market_concentration.concentration_level
    | none => "Unknown"
  let competition_level : String :=
    if concentration = "High" then "High"
    else if concentration = "Medium" then "Medium"
    else "Low"
  let opportunity_score :=
    calculate_opportunity_score competitor_data avg_views avg_engagement
  { market_size := market_size
    competition_level := competition_level
    opportunity_score := opportunity_score
    strategic_recommendation :=
      get_strategic_recommendation opportunity_score competition_level market_size }

/-- A value stored in the `analyze_titles` result dictionary (used to model
string-keyed `.get` access on that dictionary). -/
inductive TVal where
  | nat : Nat → TVal
  | rat : ℚ → TVal
  | wordCounts : List (List Char × Nat) → TVal
  | emoji : EmojiUsage → TVal
  | pats : TitlePatterns → TVal
  | strs : List (List Char) → TVal
deriving DecidableEq, Repr

/-- Python truthiness of a stored value (`0`/`0.0`/empty list are falsy;
a non-empty dictionary such as the emoji or pattern sub-dicts is truthy). -/
def tval_truthy : TVal → Bool
  | TVal.nat n => decide (n ≠ 0)
  | TVal.rat q => decide (q ≠ 0)
  | TVal.wordCounts l => !l.isEmpty
  | TVal.emoji _ => true
  | TVal.pats _ => true
  | TVal.strs l => !l.isEmpty

/-- `title_data.get(k)` for the dictionary built by `analyze_titles`
(an empty dictionary — `none` — has no keys at all). -/
def title_data_get (title_data : Option TitleAnalysis) (k : String) : Option TVal :=
  match title_data with
  | none => none
  | some a =>
      if k = "total_titles_analyzed" then some (TVal.nat a.total_titles_analyzed)
      else if k = "avg_title_length" then some (TVal.rat a.avg_title_length)
      else if k = "most_common_words" then some (TVal.wordCounts a.most_common_words)
      else if k = "most_common_phrases" then some (TVal.wordCounts a.most_common_phrases)
      else if k = "emoji_usage" then some (TVal.emoji a.emoji_usage)
      else if k = "title_patterns" then some (TVal.pats a.title_patterns)
      else if k = "successful_titles" then some (TVal.strs a.successful_titles)
      else none

/-- One entry of `actionable_insights` (its free-text `insight`, `action`
and `expected_impact` strings are presentation only and omitted). -/
structure Insight where
  category : String
  priority : String
deriving DecidableEq, Repr, Inhabited

/-- `_generate_actionable_insights`. The title branches read the keys
`'common_words'` and `'patterns'` through `.get`; the empty index accesses
in the timing/competitor branches (which would raise in Python) are
unreachable for a non-empty batch and modelled as producing no insight. -/
def generate_actionable_insights (growth_data : Option GrowthAnalysis)
    (title_data : Option TitleAnalysis) (competitor_data : Option CompetitorAnalysis)
    (temporal_data : Option TemporalAnalysis) (keyword_data : Option KeywordAnalysis) :
    List Insight :=
  (match title_data_get title_data "common_words" with
   | some v => if tval_truthy v then [⟨"Title Optimization", "High"⟩] else []
   | none => []) ++
  (match keyword_data with
   | some k => if !k.top_keywords.isEmpty then [⟨"SEO Strategy", "High"⟩] else []
   | none => []) ++
  (match temporal_data with
   | some t =>
      (match t.best_posting_times.best_hours, t.best_posting_times.best_days with
       | _ :: _, _ :: _ => [⟨"Posting Strategy", "Medium"⟩]
       | _, _ => [])
   | none => []) ++
  (match competitor_data with
   | some c =>
      (match c.top_competitors with
       | _ :: _ => [⟨"Competitive Analysis", "High"⟩]
       | [] => [])
   | none => []) ++
  (match title_data_get title_data "patterns" with
   | some v =>
      if tval_truthy v then
        (match v with
         | TVal.pats p =>
            if 50 < p.tutorial_pattern then [⟨"Content Format", "Medium"⟩] else []
         | _ => [])
      else []
   | none => [])

/-- Result dictionary of `generate_executive_report`. `content_strategy`,
`competitive_intelligence`, `performance_benchmarks`, `next_steps` and
`report_metadata` are presentation output consumed by no claim and are
omitted from the model. -/
structure ExecutiveReport where
  executive_summary : ExecutiveSummary
  actionable_insights : List Insight
deriving DecidableEq, Repr, Inhabited

/-- `generate_executive_report` (returns `{}` — here `none` — on empty
input). -/
def generate_executive_report (now : Nat) (videos : List Video)
    (search_keyword : List Char) : Option ExecutiveReport :=
  if videos.isEmpty then none
  else
    let growth_data := analyze_growth_patterns now videos
    let title_data := analyze_titles videos
    let competitor_data := analyze_competitors videos
    let temporal_data := analyze_temporal_patterns now videos
    let keyword_data := analyze_keywords videos search_keyword
    some
      { executive_summary :=
          generate_executive_summary videos search_keyword growth_data competitor_data
        actionable_insights :=
          generate_actionable_insights growth_data title_data competitor_data
            temporal_data keyword_data }

/-- The actionable-insights list of the executive report (an empty report
dictionary contributes no insights). -/
def reportActionableInsights (now : Nat) (videos : List Video)
    (search_keyword : List Char) : List Insight :=
  match generate_executive_report now videos search_keyword with
  | some r => r.actionable_insights
  | none => []

/-! ## Theorems -/

/-- C2: for the empty input list, all six aggregators (growth, title,
competitor, temporal, keyword, executive report) short-circuit to the empty
result (`{}`, modelled as `none`) instead of raising. -/
theorem empty_input_all_aggregators (now : Nat) (kw : List Char) :
    analyze_growth_patterns now [] = none ∧
    analyze_titles [] = none ∧
    analyze_competitors [] = none ∧
    analyze_temporal_patterns now [] = none ∧
    analyze_keywords [] kw = none ∧
    generate_executive_report now [] kw = none :=
  ⟨rfl, rfl, rfl, rfl, rfl, rfl⟩

/-- C9: for every input — any competitor data, any average views, any
average engagement (finite, infinite or NaN) — the opportunity score is an
integer in the closed interval `[1, 10]`. -/
theorem opportunity_score_bounds (competitor_data : Option CompetitorAnalysis)
    (avg_views : ℚ) (avg_engagement : PdF) :
    1 ≤ calculate_opportunity_score competitor_data avg_views avg_engagement ∧
    calculate_opportunity_score competitor_data avg_views avg_engagement ≤ 10 := by
  unfold calculate_opportunity_score
  exact ⟨le_max_left 1 _, max_le (by norm_num) (min_le_left 10 _)⟩

theorem concLevel_cases (s : ℚ) :
    (((if 60 < s then "High" else if 40 < s then "Medium" else "Low") : String)
        = "High" ↔ 60 < s) ∧
    (((if 60 < s then "High" else if 40 < s then "Medium" else "Low") : String)
        = "Medium" ↔ 40 < s ∧ s ≤ 60) ∧
    (((if 60 < s then "High" else if 40 < s then "Medium" else "Low") : String)
        = "Low" ↔ s ≤ 40) := by
  by_cases h1 : 60 < s
  · refine ⟨by simp [h1], ?_, ?_⟩
    · simp only [if_pos h1]
      constructor
      · intro hc; exact absurd hc (by decide)
      · rintro ⟨-, hle⟩; exact absurd h1 (not_lt.mpr hle)
    · simp only [if_pos h1]
      constructor
      · intro hc; exact absurd hc (by decide)
      · intro hle; exact absurd h1 (not_lt.mpr (hle.trans (by norm_num)))
  · by_cases h2 : 40 < s
    · refine ⟨?_, by simp [h1, h2, not_lt.mp h1], ?_⟩
      · simp only [if_neg h1, if_pos h2]
        constructor
        · intro hc; exact absurd hc (by decide)
        · intro hgt; exact absurd hgt h1
      · simp only [if_neg h1, if_pos h2]
        constructor
        · intro hc; exact absurd hc (by decide)
        · intro hle; exact absurd h2 (not_lt.mpr (hle.trans (by norm_num)))
    · refine ⟨?_, ?_, by simp [h1, h2, not_lt.mp h2]⟩
      · simp only [if_neg h1, if_neg h2]
        constructor
        · intro hc; exact absurd hc (by decide)
        · intro hgt
          exact absurd (lt_trans (by norm_num) hgt) h2
      · simp only [if_neg h1, if_neg h2]
        constructor
        · intro hc; exact absurd hc (by decide)
        · rintro ⟨hgt, -⟩; exact absurd hgt h2

/-- C4: for every non-empty input, the competitor aggregator's concentration
level is `High` iff the combined market share of the top 5 channels exceeds
60, `Medium` iff it exceeds 40 but is at most 60, and `Low` iff it is at
most 40. -/
theorem concentration_level_iff (videos : List Video) (h : videos ≠ []) :
    (((analyze_competitors videos).getD default).market_concentration.concentration_level
        = "High" ↔
      60 < ((analyze_competitors videos).getD default).market_concentration.top_5_share) ∧
    (((analyze_competitors videos).getD default).market_concentration.concentration_level
        = "Medium" ↔
      (40 < ((analyze_competitors videos).getD default).market_concentration.top_5_share ∧
        ((analyze_competitors videos).getD default).market_concentration.top_5_share ≤ 60)) ∧
    (((analyze_competitors videos).getD default).market_concentration.concentration_level
        = "Low" ↔
      ((analyze_competitors videos).getD default).market_concentration.top_5_share ≤ 40) := by
  have hne : videos.isEmpty = false := by
    cases videos with
    | nil => exact absurd rfl h
    | cons v vs => rfl
  simp only [analyze_competitors, hne, Bool.false_eq_true, if_false, Option.getD_some]
  exact concLevel_cases _

/-- C8: for every non-empty input, the day-of-week buckets of the temporal
aggregator appear in the fixed calendar order Monday→Sunday (absent days
simply missing), i.e. the bucket-name sequence is a sublist of the canonical
week, regardless of the input order. -/
theorem temporal_day_order_fixed (now : Nat) (videos : List Video) (h : videos ≠ []) :
    List.Sublist
      ((((analyze_temporal_patterns now videos).getD default).day_performance).map
        (fun s => s.day_of_week))
      day_order_list := by
  have hne : videos.isEmpty = false := by
    cases videos with
    | nil => exact absurd rfl h
    | cons v vs => rfl
  simp only [analyze_temporal_patterns, hne, Bool.false_eq_true, if_false,
    Option.getD_some]
  unfold day_performance
  rw [List.map_map]
  have hid : ((fun s => s.day_of_week) ∘ mkDayStat videos) = fun d => d := rfl
  rw [hid, List.map_id']
  exact List.filter_sublist _

/-- C6 (code bug): for the multi-word keyword `"python tutorial"` and the
title `"Python Tutorial for Beginners 2024"` — which does contain the
keyword — the long-tail extraction returns the empty list, because the token
scan looks for the whole keyword inside a single whitespace-delimited word,
which can never contain the keyword's space. -/
theorem long_tail_multiword_keyword_empty :
    containsSub (lowerChars ("python tutorial").data)
      (lowerChars ("Python Tutorial for Beginners 2024").data) = true ∧
    extract_long_tail_keywords [("Python Tutorial for Beginners 2024").data]
      (("python tutorial").data) = [] := by
  exact ⟨by decide, by decide⟩

theorem filter_map_comm (f : α → β) (p : β → Bool) (l : List α) :
    (l.map f).filter p = (l.filter (fun a => p (f a))).map f := by
  induction l with
  | nil => rfl
  | cons x xs ih =>
      by_cases hx : p (f x) <;> simp [List.filter_cons, hx, ih]

theorem pairwise_take_drop {R : α → α → Prop} (l : List α) (h : l.Pairwise R)
    (n : Nat) : ∀ a ∈ l.take n, ∀ b ∈ l.drop n, R a b := by
  rw [← List.take_append_drop n l] at h
  exact (List.pairwise_append.mp h).2.2

theorem take_filter_prefix_of_filter_eq (p : α → Bool) (l l' : List α) (n : Nat)
    (h : l.filter p = l'.filter p) : (l.take n).filter p <+: l'.filter p := by
  refine ⟨(l.drop n).filter p, ?_⟩
  rw [← List.filter_append, List.take_append_drop, h]

/-- C7: for every non-empty input the growth aggregator's `top_performers`
list has at most 5 entries, each entry is the projection of an input record,
the list is sorted by view count descending with ties kept in input order
(each equal-view-count class is a prefix of that class in the input), and
the reported `avg_views` is the arithmetic mean of the input view counts. -/
theorem growth_top_performers_spec (now : Nat) (videos : List Video)
    (h : videos ≠ []) :
    ((analyze_growth_patterns now videos).getD default).top_performers.length ≤ 5 ∧
    (∀ e ∈ ((analyze_growth_patterns now videos).getD default).top_performers,
      ∃ v ∈ videos, e = mkPerf now v) ∧
    ((analyze_growth_patterns now videos).getD default).top_performers.Pairwise
      (fun a b => b.view_count ≤ a.view_count) ∧
    (∀ n : Nat,
      ((analyze_growth_patterns now videos).getD default).top_performers.filter
          (fun e => e.view_count == n) <+:
        (videos.map (mkPerf now)).filter (fun e => e.view_count == n)) ∧
    ((analyze_growth_patterns now videos).getD default).avg_views =
      ((videos.map fun v => (v.view_count : ℚ)).sum) / (videos.length : ℚ) := by
  have hne : videos.isEmpty = false := by
    cases videos with
    | nil => exact absurd rfl h
    | cons v vs => rfl
  simp only [analyze_growth_patterns, nlargestBy, hne, Bool.false_eq_true,
    if_false, Option.getD_some]
  refine ⟨?_, ?_, ?_, ?_, trivial⟩
  · rw [List.length_map]
    exact List.length_take_le 5 _
  · intro e he
    rcases List.mem_map.mp he with ⟨v, hv, heq⟩
    exact ⟨v, (sortDescBy_perm _ videos).mem_iff.mp (List.take_subset 5 _ hv),
      heq.symm⟩
  · rw [List.pairwise_map]
    exact ((sortDescBy_pairwise (fun v : Video => v.view_count) videos).sublist
      (List.take_sublist 5 _))
  · intro n
    rw [filter_map_comm, filter_map_comm]
    have hpre : ((sortDescBy (fun v => v.view_count) videos).take 5).filter
        (fun v => (mkPerf now v).view_count == n) <+:
        videos.filter (fun v => (mkPerf now v).view_count == n) := by
      refine take_filter_prefix_of_filter_eq _ _ _ 5 ?_
      have := sortDescBy_filter_key (fun v : Video => v.view_count) videos n
      simpa [mkPerf] using this
    rcases hpre with ⟨t, ht⟩
    exact ⟨t.map (mkPerf now), by rw [← List.map_append, ht]⟩

/-- C5 (amended): for every non-empty list of `N` records the title
aggregator's "successful" subset consists of exactly `max 1 (N / 5)` records
(floor division, as in `max(1, len(videos) // 5)`), and that subset is the
top so-many by view count: a stable descending selection from the input
whose members all have view counts at least those of the unselected rest. -/
theorem titles_successful_subset_spec (videos : List Video) (h : videos ≠ []) :
    ((analyze_titles videos).getD default).total_titles_analyzed =
      max 1 (videos.length / 5) ∧
    (titleTopPerformers videos).length = max 1 (videos.length / 5) ∧
    (∀ v ∈ titleTopPerformers videos, v ∈ videos) ∧
    (titleTopPerformers videos).Pairwise
      (fun a b => b.view_count ≤ a.view_count) ∧
    (∀ a ∈ titleTopPerformers videos,
      ∀ b ∈ (sortDescBy (fun v => v.view_count) videos).drop
          (max 1 (videos.length / 5)),
        b.view_count ≤ a.view_count) ∧
    List.Perm videos
      (titleTopPerformers videos ++
        (sortDescBy (fun v => v.view_count) videos).drop
          (max 1 (videos.length / 5))) := by
  have hne : videos.isEmpty = false := by
    cases videos with
    | nil => exact absurd rfl h
    | cons v vs => rfl
  have hk : max 1 (videos.length / 5) ≤ videos.length :=
    max_le (List.length_pos.mpr h) (Nat.div_le_self _ _)
  have hlen : (titleTopPerformers videos).length = max 1 (videos.length / 5) := by
    unfold titleTopPerformers nlargestBy
    rw [List.length_take, sortDescBy_length]
    exact Nat.min_eq_left hk
  refine ⟨?_, hlen, ?_, ?_, ?_, ?_⟩
  · simp only [analyze_titles, hne, Bool.false_eq_true, if_false,
      Option.getD_some]
    rw [List.length_map]
    exact hlen
  · intro v hv
    exact (sortDescBy_perm _ videos).mem_iff.mp
      (List.take_subset _ _ hv)
  · exact (sortDescBy_pairwise (fun v : Video => v.view_count) videos).sublist
      (List.take_sublist _ _)
  · exact pairwise_take_drop _
      (sortDescBy_pairwise (fun v : Video => v.view_count) videos) _
  · have hsplit := List.take_append_drop (max 1 (videos.length / 5))
      (sortDescBy (fun v => v.view_count) videos)
    unfold titleTopPerformers nlargestBy
    rw [hsplit]
    exact (sortDescBy_perm _ videos).symm

theorem val_beq_nan (q : ℚ) : (PdF.val q == PdF.nan) = false := rfl

theorem val_beq_inf (q : ℚ) : (PdF.val q == PdF.inf) = false := rfl

theorem engagement_filter (videos : List Video)
    (hz : ∀ v ∈ videos, v.view_count = 0 → v.like_count = 0) :
    (videos.map engagementCell).filter (fun x => !(x == PdF.nan)) =
      (videos.filter (fun v => v.view_count != 0)).map
        (fun v => PdF.val ((v.like_count : ℚ) / (v.view_count : ℚ))) := by
  induction videos with
  | nil => rfl
  | cons v vs ih =>
      have hz' : ∀ w ∈ vs, w.view_count = 0 → w.like_count = 0 :=
        fun w hw => hz w (List.mem_cons_of_mem _ hw)
      by_cases hv : v.view_count = 0
      · have hl : v.like_count = 0 := hz v (List.mem_cons_self _ _) hv
        simp [engagementCell, pdDivNat, hv, hl, List.filter_cons, ih hz']
      · simp [engagementCell, pdDivNat, hv, List.filter_cons, ih hz',
          val_beq_nan]

/-- C1 (amended): in the growth aggregator's mean engagement ratio the
records with `views == 0` are excluded only when they also have
`likes == 0` (pandas drops the `NaN` from `0/0` but propagates the `inf`
from `likes/0`); whenever every zero-view record has zero likes and at least
one record has positive views, the reported average engagement rate is the
finite number `100 ×` the mean of `likes/views` over the positive-view
records. -/
theorem growth_avg_engagement_rate_guarded (now : Nat) (videos : List Video)
    (hz : ∀ v ∈ videos, v.view_count = 0 → v.like_count = 0)
    (hp : videos.filter (fun v => v.view_count != 0) ≠ []) :
    ((analyze_growth_patterns now videos).getD default).avg_engagement_rate =
      PdF.val (100 *
        (((videos.filter (fun v => v.view_count != 0)).map
            (fun v => (v.like_count : ℚ) / (v.view_count : ℚ))).sum /
          ((videos.filter (fun v => v.view_count != 0)).length : ℚ))) := by
  have hvne : videos ≠ [] := by
    intro hnil
    rw [hnil] at hp
    exact hp rfl
  have hne : videos.isEmpty = false := by
    cases videos with
    | nil => exact absurd rfl hvne
    | cons v vs => rfl
  simp only [analyze_growth_patterns, hne, Bool.false_eq_true, if_false,
    Option.getD_some]
  simp only [pdMean, engagement_filter videos hz]
  have hfe : ((videos.filter (fun v => v.view_count != 0)).map
      (fun v => PdF.val ((v.like_count : ℚ) / (v.view_count : ℚ)))).isEmpty
        = false := by
    cases hF : videos.filter (fun v => v.view_count != 0) with
    | nil => exact absurd hF hp
    | cons a l => rfl
  rw [hfe]
  have hinf : ((videos.filter (fun v => v.view_count != 0)).map
      (fun v => PdF.val ((v.like_count : ℚ) / (v.view_count : ℚ)))).any
        (fun x => x == PdF.inf) = false := by
    simp only [List.any_eq_false]
    intro x hx
    rcases List.mem_map.mp hx with ⟨w, -, rfl⟩
    simp
  rw [hinf]
  simp only [Bool.false_eq_true, if_false, List.map_map, List.length_map]
  have hcomp : (pdToQ ∘ fun v : Video =>
      PdF.val ((v.like_count : ℚ) / (v.view_count : ℚ))) =
      fun v : Video => (v.like_count : ℚ) / (v.view_count : ℚ) := rfl
  rw [hcomp]
  simp [pdScale]

theorem insights_all_of_title_keys_absent (gd : Option GrowthAnalysis)
    (cd : Option CompetitorAnalysis) (tmp : Option TemporalAnalysis)
    (kd : Option KeywordAnalysis) (td : Option TitleAnalysis)
    (h1 : title_data_get td "common_words" = none)
    (h2 : title_data_get td "patterns" = none) :
    (generate_actionable_insights gd td cd tmp kd).all
      (fun i => !(i.category == "Title Optimization") &&
        !(i.category == "Content Format")) = true := by
  unfold generate_actionable_insights
  simp only [h1, h2]
  repeat' split
  all_goals rfl

/-- C10: for every video list and keyword, no entry of the executive
report's actionable-insights list carries the category
`'Title Optimization'` or `'Content Format'`: those two branches of
`_generate_actionable_insights` read the keys `'common_words'` and
`'patterns'`, which `analyze_titles` never produces (it writes
`'most_common_words'` and `'title_patterns'`), so they are unreachable. -/
theorem actionable_insights_no_dead_categories (now : Nat)
    (videos : List Video) (kw : List Char) :
    (reportActionableInsights now videos kw).all
      (fun i => !(i.category == "Title Optimization") &&
        !(i.category == "Content Format")) = true := by
  cases videos with
  | nil => rfl
  | cons v vs =>
      exact insights_all_of_title_keys_absent
        (analyze_growth_patterns now (v :: vs)) (analyze_competitors (v :: vs))
        (analyze_temporal_patterns now (v :: vs))
        (analyze_keywords (v :: vs) kw) (analyze_titles (v :: vs)) rfl rfl

theorem abs_rhe_sub (x : ℚ) : |(rhe x : ℚ) - x| ≤ 1 / 2 := by
  have h0 : ((⌊x⌋ : ℤ) : ℚ) ≤ x := Int.floor_le x
  have h1 : x < (⌊x⌋ : ℚ) + 1 := Int.lt_floor_add_one x
  unfold rhe
  split_ifs with hf1 hf2 hev
  · exact abs_le.mpr ⟨by linarith, by linarith⟩
  · refine abs_le.mpr ⟨?_, ?_⟩ <;> push_cast <;> linarith
  · have hhalf : x - ((⌊x⌋ : ℤ) : ℚ) = 1 / 2 :=
      le_antisymm (not_lt.mp hf2) (not_lt.mp hf1)
    exact abs_le.mpr ⟨by linarith, by linarith⟩
  · have hhalf : x - ((⌊x⌋ : ℤ) : ℚ) = 1 / 2 :=
      le_antisymm (not_lt.mp hf2) (not_lt.mp hf1)
    refine abs_le.mpr ⟨?_, ?_⟩ <;> push_cast <;> linarith

theorem abs_round2_sub (x : ℚ) : |round2 x - x| ≤ 1 / 200 := by
  have h := abs_rhe_sub (x * 100)
  unfold round2
  have hre : (rhe (x * 100) : ℚ) / 100 - x = ((rhe (x * 100) : ℚ) - x * 100) / 100 := by
    ring
  rw [hre, abs_div, show |(100 : ℚ)| = 100 by norm_num]
  linarith

theorem abs_sum_round2 (l : List ℚ) :
    |(l.map round2).sum - l.sum| ≤ (l.length : ℚ) * (1 / 200) := by
  induction l with
  | nil => simp
  | cons x xs ih =>
      simp only [List.map_cons, List.sum_cons, List.length_cons]
      have h := abs_round2_sub x
      have hsum : round2 x + (xs.map round2).sum - (x + xs.sum) =
          (round2 x - x) + ((xs.map round2).sum - xs.sum) := by ring
      rw [hsum]
      calc |(round2 x - x) + ((xs.map round2).sum - xs.sum)|
          ≤ |round2 x - x| + |(xs.map round2).sum - xs.sum| := abs_add _ _
        _ ≤ 1 / 200 + (xs.length : ℚ) * (1 / 200) := add_le_add h ih
        _ = ((xs.length + 1 : ℕ) : ℚ) * (1 / 200) := by push_cast; ring

theorem dedupFO_nodup [DecidableEq α] (l : List α) : (dedupFO l).Nodup := by
  induction l with
  | nil => exact List.nodup_nil
  | cons x xs ih =>
      refine List.nodup_cons.mpr
        ⟨?_, List.Nodup.filter (fun y => decide (y ≠ x)) ih⟩
      intro hx
      have hcontra := List.of_mem_filter hx
      simp at hcontra

theorem mem_dedupFO [DecidableEq α] (l : List α) (x : α) :
    x ∈ dedupFO l ↔ x ∈ l := by
  induction l with
  | nil => simp [dedupFO]
  | cons y ys ih =>
      simp only [dedupFO, List.mem_cons]
      constructor
      · rintro (rfl | hx)
        · exact Or.inl rfl
        · exact Or.inr (ih.mp (List.mem_of_mem_filter hx))
      · rintro (rfl | hx)
        · exact Or.inl rfl
        · by_cases hxy : x = y
          · exact Or.inl hxy
          · refine Or.inr (List.mem_filter.mpr ⟨ih.mpr hx, ?_⟩)
            exact decide_eq_true hxy

theorem sum_map_add_nat (K : List α) (g h : α → ℕ) :
    (K.map (fun c => g c + h c)).sum = (K.map g).sum + (K.map h).sum := by
  induction K with
  | nil => rfl
  | cons c cs ih =>
      simp only [List.map_cons, List.sum_cons, ih]
      omega

theorem sum_indicator_not_mem [DecidableEq α] (K : List α) (x : α) (A : ℕ)
    (hx : x ∉ K) : (K.map (fun c => if x = c then A else 0)).sum = 0 := by
  induction K with
  | nil => rfl
  | cons c cs ih =>
      have hxc : x ≠ c := fun h => hx (h ▸ List.mem_cons_self c cs)
      simp only [List.map_cons, List.sum_cons, if_neg hxc,
        ih (fun h => hx (List.mem_cons_of_mem c h)), Nat.zero_add]

theorem sum_indicator_mem [DecidableEq α] (K : List α) (x : α) (A : ℕ)
    (hN : K.Nodup) (hx : x ∈ K) :
    (K.map (fun c => if x = c then A else 0)).sum = A := by
  induction K with
  | nil => cases hx
  | cons c cs ih =>
      rcases List.mem_cons.mp hx with rfl | hmem
      · have hnot : x ∉ cs := (List.nodup_cons.mp hN).1
        simp [sum_indicator_not_mem cs x A hnot]
      · have hxc : x ≠ c := by
          rintro rfl
          exact (List.nodup_cons.mp hN).1 hmem
        simp only [List.map_cons, List.sum_cons, if_neg hxc,
          ih (List.nodup_cons.mp hN).2 hmem, Nat.zero_add]

theorem sum_groups (f : Video → ℕ) (videos : List Video) (K : List String)
    (hN : K.Nodup) (hcov : ∀ v ∈ videos, v.channel ∈ K) :
    (K.map (fun c =>
      ((videos.filter (fun v => v.channel == c)).map f).sum)).sum =
      (videos.map f).sum := by
  induction videos with
  | nil => simp
  | cons v vs ih =>
      have hcov' : ∀ w ∈ vs, w.channel ∈ K :=
        fun w hw => hcov w (List.mem_cons_of_mem v hw)
      have hstep : ∀ c : String,
          (((v :: vs).filter (fun w => w.channel == c)).map f).sum =
            (if v.channel = c then f v else 0) +
              ((vs.filter (fun w => w.channel == c)).map f).sum := by
        intro c
        by_cases hc : v.channel = c <;> simp [List.filter_cons, hc]
      calc (K.map (fun c =>
              (((v :: vs).filter (fun w => w.channel == c)).map f).sum)).sum
          = (K.map (fun c => (if v.channel = c then f v else 0) +
              ((vs.filter (fun w => w.channel == c)).map f).sum)).sum := by
            exact congrArg List.sum (List.map_congr_left (fun c _ => hstep c))
        _ = (K.map (fun c => if v.channel = c then f v else 0)).sum +
              (K.map (fun c =>
                ((vs.filter (fun w => w.channel == c)).map f).sum)).sum :=
            sum_map_add_nat K _ _
        _ = f v + (vs.map f).sum := by
            rw [sum_indicator_mem K v.channel (f v) hN
              (hcov v (List.mem_cons_self v vs)), ih hcov']
        _ = ((v :: vs).map f).sum := by simp

/-- C3: for every batch with a positive grand total of views, the market
shares the competitor aggregator assigns across all channels are the
two-decimal roundings of `channelViews / grandTotal * 100`, the unrounded
shares sum to exactly 100, and the rounded shares sum to 100 within the
rounding tolerance of half an ulp (1/200) per channel. -/
theorem market_share_spec (videos : List Video) (h1 : videos ≠ [])
    (h2 : 0 < (videos.map (fun v => v.view_count)).sum) :
    ((channel_stats_sorted videos).map
        (fun cs => (cs.total_views : ℚ) /
          (((videos.map (fun v => v.view_count)).sum : ℕ) : ℚ) * 100)).sum
      = 100 ∧
    (∀ cs ∈ channel_stats_sorted videos,
      cs.market_share = round2 ((cs.total_views : ℚ) /
        (((videos.map (fun v => v.view_count)).sum : ℕ) : ℚ) * 100)) ∧
    |((channel_stats_sorted videos).map (fun cs => cs.market_share)).sum - 100|
      ≤ ((channel_stats_sorted videos).length : ℚ) * (1 / 200) := by
  set G : ℕ := (videos.map (fun v => v.view_count)).sum with hGdef
  set S : List ChannelStat := sortDescBy (fun cs => cs.total_views)
    ((channelsOf videos).map (mkChannelStat videos)) with hSdef
  have hSsum : (S.map (fun cs => cs.total_views)).sum = G := by
    have hperm :
        List.Perm (S.map (fun cs => cs.total_views))
          (((channelsOf videos).map (mkChannelStat videos)).map
            (fun cs => cs.total_views)) :=
      (sortDescBy_perm _ _).map _
    rw [hperm.sum_eq, List.map_map]
    have hcomp : ((fun cs : ChannelStat => cs.total_views) ∘
        mkChannelStat videos) = fun c =>
          ((videos.filter (fun v => v.channel == c)).map
            (fun v => v.view_count)).sum := rfl
    rw [hcomp]
    exact sum_groups _ videos (channelsOf videos)
      (dedupFO_nodup _)
      (fun v hv => (mem_dedupFO _ _).mpr (List.mem_map_of_mem _ hv))
  have hcss : channel_stats_sorted videos = S.map
      (fun cs => { cs with
        market_share := round2 ((cs.total_views : ℚ) / (G : ℚ) * 100) }) := by
    unfold channel_stats_sorted
    rw [← hSdef]
    simp only [hSsum]
  have hGQ : ((G : ℕ) : ℚ) ≠ 0 := Nat.cast_ne_zero.mpr h2.ne'
  have hA : ((channel_stats_sorted videos).map
      (fun cs => (cs.total_views : ℚ) / (G : ℚ) * 100)).sum = 100 := by
    rw [hcss, List.map_map]
    have hcomp : ((fun cs : ChannelStat => (cs.total_views : ℚ) / (G : ℚ) * 100) ∘
        (fun cs : ChannelStat => { cs with
          market_share := round2 ((cs.total_views : ℚ) / (G : ℚ) * 100) })) =
        fun cs : ChannelStat => (cs.total_views : ℚ) / (G : ℚ) * 100 := rfl
    rw [hcomp]
    have hQ : (S.map (fun cs : ChannelStat => ((cs.total_views : ℕ) : ℚ))).sum
        = (G : ℚ) := by
      rw [show (fun cs : ChannelStat => ((cs.total_views : ℕ) : ℚ)) =
        (fun n : ℕ => (n : ℚ)) ∘ (fun cs : ChannelStat => cs.total_views)
        from rfl]
      rw [← List.map_map, ← Nat.cast_list_sum, hSsum]
    calc (S.map (fun cs : ChannelStat => (cs.total_views : ℚ) / (G : ℚ) * 100)).sum
        = (S.map (fun cs : ChannelStat =>
            ((cs.total_views : ℕ) : ℚ) * (100 / (G : ℚ)))).sum := by
          exact congrArg List.sum (List.map_congr_left (fun cs _ => by ring))
      _ = (S.map (fun cs : ChannelStat => ((cs.total_views : ℕ) : ℚ))).sum *
            (100 / (G : ℚ)) := List.sum_map_mul_right _ _ _
      _ = (G : ℚ) * (100 / (G : ℚ)) := by rw [hQ]
      _ = 100 := by field_simp
  refine ⟨hA, ?_, ?_⟩
  · intro cs hcs
    rw [hcss] at hcs
    rcases List.mem_map.mp hcs with ⟨s, hs, rfl⟩
    rfl
  · have hshape : ((channel_stats_sorted videos).map
        (fun cs => cs.market_share)) =
        (S.map (fun cs : ChannelStat =>
          (cs.total_views : ℚ) / (G : ℚ) * 100)).map round2 := by
      rw [hcss, List.map_map, List.map_map]
      rfl
    have hx := abs_sum_round2
      (S.map (fun cs : ChannelStat => (cs.total_views : ℚ) / (G : ℚ) * 100))
    rw [List.length_map] at hx
    have hsum100 : (S.map (fun cs : ChannelStat =>
        (cs.total_views : ℚ) / (G : ℚ) * 100)).sum = 100 := by
      have := hA
      rw [hcss, List.map_map] at this
      exact this
    rw [hsum100] at hx
    rw [hshape]
    have hlen : (channel_stats_sorted videos).length = S.length := by
      rw [hcss, List.length_map]
    rw [hlen]
    exact hx

/-! ## Concrete batches for witnesses and counterexamples -/

/-- A video with positive views from channel `Alpha`. -/
def exAlpha : Video :=
  ⟨("v1").data, ("Tutorial A").data, "Alpha", 20000, 15, 100, 5, 0⟩

/-- A second video, different channel and weekday. -/
def exBeta : Video :=
  ⟨("v2").data, ("Review B").data, "Beta", 20001, 9, 50, 0, 0⟩

/-- Three videos with views 1000, 500, 2000 and likes 50, 10, 100 (the
worked example of the specification). -/
def exGrowthVideos : List Video :=
  [⟨("g1").data, ("T1").data, "C1", 100, 0, 1000, 50, 0⟩,
   ⟨("g2").data, ("T2").data, "C2", 101, 0, 500, 10, 0⟩,
   ⟨("g3").data, ("T3").data, "C3", 102, 0, 2000, 100, 0⟩]

/-- Six videos with pairwise distinct view counts. -/
def exSix : List Video :=
  [⟨("s1").data, ("a").data, "C", 1, 0, 60, 0, 0⟩,
   ⟨("s2").data, ("b").data, "C", 1, 0, 50, 0, 0⟩,
   ⟨("s3").data, ("c").data, "C", 1, 0, 40, 0, 0⟩,
   ⟨("s4").data, ("d").data, "C", 1, 0, 30, 0, 0⟩,
   ⟨("s5").data, ("e").data, "C", 1, 0, 20, 0, 0⟩,
   ⟨("s6").data, ("f").data, "C", 1, 0, 10, 0, 0⟩]

/-- A zero-view video with positive likes next to an ordinary video. -/
def exInfVideos : List Video :=
  [⟨("z1").data, ("Z").data, "C", 1, 0, 0, 5, 0⟩,
   ⟨("z2").data, ("P").data, "C", 1, 0, 10, 1, 0⟩]

/-- An ordinary video next to a zero-view, zero-like video. -/
def exGuardVideos : List Video :=
  [⟨("z2").data, ("P").data, "C", 1, 0, 10, 1, 0⟩,
   ⟨("z3").data, ("Q").data, "C", 1, 0, 0, 0, 0⟩]

/-- C1 counterexample: in a batch that does contain a record with positive
views, a single record with `views == 0` and `likes > 0` makes the reported
average engagement rate infinite — it is neither excluded nor treated as 0,
and the mean is not finite. -/
theorem growth_engagement_infinite_counterexample :
    (exInfVideos.any (fun v => decide (0 < v.view_count))) = true ∧
    ((analyze_growth_patterns 2 exInfVideos).getD default).avg_engagement_rate
      = PdF.inf ∧
    pdIsFinite
      (((analyze_growth_patterns 2 exInfVideos).getD default).avg_engagement_rate)
      = false :=
  ⟨by decide, by decide, by decide⟩

/-- C1 witness: on a batch whose only zero-view record also has zero likes,
the guarded-mean theorem applies and yields the finite value 10 (%). -/
theorem growth_avg_engagement_rate_guarded_witness :
    ((analyze_growth_patterns 2 exGuardVideos).getD default).avg_engagement_rate
      = PdF.val 10 := by
  have h := growth_avg_engagement_rate_guarded 2 exGuardVideos
    (by decide) (by decide)
  refine h.trans ?_
  simp only [exGuardVideos]
  norm_num

/-- C3 witness: channels `Alpha` (100 views) and `Beta` (50 views); the
exact shares sum to 100 and the rounded shares are within 2·(1/200) of
100. -/
theorem market_share_spec_witness :
    ((channel_stats_sorted [exAlpha, exBeta]).map
        (fun cs => (cs.total_views : ℚ) /
          ((([exAlpha, exBeta].map (fun v => v.view_count)).sum : ℕ) : ℚ)
            * 100)).sum = 100 ∧
    |((channel_stats_sorted [exAlpha, exBeta]).map
        (fun cs => cs.market_share)).sum - 100|
      ≤ ((channel_stats_sorted [exAlpha, exBeta]).length : ℚ) * (1 / 200) := by
  have h := market_share_spec [exAlpha, exBeta] (List.cons_ne_nil _ _)
    (by decide)
  exact ⟨h.1, h.2.2⟩

/-- C4 witness: a single-channel batch has a top-5 share above 60, hence
concentration `High` (the specification's single-channel example). -/
theorem concentration_level_iff_witness :
    ((analyze_competitors [exAlpha]).getD
      default).market_concentration.concentration_level = "High" := by
  have hpipe : ((analyze_competitors [exAlpha]).getD
      default).market_concentration.top_5_share =
      round2 ((100 : ℚ) / (100 : ℚ) * 100) := by
    simp [analyze_competitors, channel_stats_sorted, channelsOf, dedupFO,
      mkChannelStat, channelRows, sortDescBy, insertDescBy, exAlpha]
  have h100 : round2 ((100 : ℚ) / (100 : ℚ) * 100) = 100 := by
    have harg : ((100 : ℚ) / (100 : ℚ) * 100) * 100 = ((10000 : ℤ) : ℚ) := by
      norm_num
    unfold round2 rhe
    rw [harg, Int.floor_intCast]
    norm_num
  refine (concentration_level_iff [exAlpha] (List.cons_ne_nil _ _)).1.mpr ?_
  rw [hpipe, h100]
  norm_num

/-- C5 counterexample: with `N = 6` records the code analyses
`max(1, 6 // 5) = 1` title, not the `max(1, ⌈6/5⌉) = 2` the claim states. -/
theorem titles_subset_size_counterexample :
    ((analyze_titles exSix).getD default).total_titles_analyzed = 1 ∧
    ((analyze_titles exSix).getD default).total_titles_analyzed ≠
      max 1 ((exSix.length + 4) / 5) :=
  ⟨by decide, by decide⟩

/-- C5 witness: the amended size formula holds on the six-record batch. -/
theorem titles_successful_subset_spec_witness :
    ((analyze_titles exSix).getD default).total_titles_analyzed =
      max 1 (exSix.length / 5) :=
  (titles_successful_subset_spec exSix (List.cons_ne_nil _ _)).1

/-- C7 witness: views `[1000, 500, 2000]` are reported as top performers
`[2000, 1000, 500]` with mean views `3500/3` (displayed as 1166.67 at two
decimals). -/
theorem growth_top_performers_spec_witness :
    (((analyze_growth_patterns 105 exGrowthVideos).getD
        default).top_performers.map (fun e => e.view_count))
      = [2000, 1000, 500] ∧
    ((analyze_growth_patterns 105 exGrowthVideos).getD default).avg_views
      = 3500 / 3 ∧
    round2 ((3500 : ℚ) / 3) = 116667 / 100 := by
  have h := growth_top_performers_spec 105 exGrowthVideos
    (List.cons_ne_nil _ _)
  refine ⟨by decide, h.2.2.2.2.trans ?_, ?_⟩
  · simp only [exGrowthVideos]
    norm_num
  · have hfl : ⌊((3500 : ℚ) / 3) * 100⌋ = 116666 := by
      rw [Int.floor_eq_iff] <;> norm_num
    unfold round2 rhe
    rw [hfl]
    norm_num

/-- C8 witness: a two-video batch published on a Saturday and a Sunday keeps
its day buckets in calendar order. -/
theorem temporal_day_order_fixed_witness :
    List.Sublist
      ((((analyze_temporal_patterns 20010 [exAlpha, exBeta]).getD
        default).day_performance).map (fun s => s.day_of_week))
      day_order_list :=
  temporal_day_order_fixed 20010 [exAlpha, exBeta] (List.cons_ne_nil _ _)
